import Mathlib

/-!
Shallow embedding of the proxmox-bot command engine.

Sources embedded here:
* `command_decorator.py` — the `wrapper` closure produced by the `command`
  decorator (contextual parameter injection, VM-identifier resolution,
  argument binding, error formatting);
* `src/bot/command_handler.py` — `CommandHandler.register_command`,
  `parse_command`, `generate_help_message` and `respond`.

External collaborators that are not part of the repository sources
(`proxmox.get_proxmox_api`, `proxmox.resolve_vm_identifier`,
`session_config.SessionConfig.get_node`, `transformers.commands_to_markdown`)
are modelled as explicit parameters, or from the spec where noted.

Machine-level notes on the embedding:
* Python string truthiness (`if session_node:`, `if not command_group:`) is
  modelled explicitly: `None` and the empty string are falsy.
* Python dicts are modelled as association lists with in-place update, which
  preserves the insertion-order semantics of `dict` assignment.
* Apostrophes occurring inside the literal user-facing message strings of the
  source are elided in the modelled strings; no claim depends on them.
* `inspect.signature(...).bind(...)` followed by `apply_defaults()` is
  modelled by `bindArgs` for signatures whose parameters are all plain
  positional-or-keyword parameters, which is the case for every operation
  body this repository decorates.  The exact wording of Python binding error
  messages is modelled up to CPython's phrasing minus quote characters.
-/

/-- A runtime value handed to an operation body: the Proxmox API handle that
the wrapper always injects first, or a string (user tokens, node names and VM
identifiers all travel as strings). -/
inductive Val where
  | api
  | str (s : String)
  deriving DecidableEq

/-- `str(value)` as used by the wrapper's resolution-failure f-string. -/
def Val.render : Val → String
  | .api => "<proxmox-api>"
  | .str s => s

/-- One declared parameter of an operation body: its name and its declared
default value, if any (`inspect.Parameter`). -/
structure Param where
  name : String
  default : Option Val
  deriving DecidableEq

/-- Outcome of running an operation body: a returned string, or a raised
Python exception. -/
inductive PyExc where
  | typeError (msg : String)
  | other (msg : String)
  deriving DecidableEq

/-- Result of invoking the underlying (already bound) operation body. -/
inductive BodyOut where
  | ok (s : String)
  | exc (e : PyExc)
  deriving DecidableEq

/-- A decorated operation: `__name__`, introspected signature parameters,
`__description__`, and the underlying callable body, which receives the fully
bound argument list in declaration order. -/
structure Func where
  name : String
  params : List Param
  descr : String
  body : List Val → BodyOut

/-- Keyword arguments of a call, as a Python dict in insertion order. -/
abbrev KwList := List (String × Val)

/-- The external `resolve_vm_identifier(node_name, vm_id)` collaborator:
given an optional scope value and a raw identifier, returns the canonical
identifier or `none` for unresolved. -/
abbrev Resolver := Option Val → Val → Option Val

/-- Dict key lookup on an association list (first match). -/
def alLookup {α : Type} : List (String × α) → String → Option α
  | [], _ => none
  | (k2, v) :: r, k => if k2 = k then some v else alLookup r k

/-- Dict assignment `d[k] = v`: overwrite in place, else append. -/
def alUpdate {α : Type} : List (String × α) → String → α → List (String × α)
  | [], k, v => [(k, v)]
  | (k2, v2) :: r, k, v =>
      if k2 = k then (k, v) :: r else (k2, v2) :: alUpdate r k v

/-- Remove a key from an association list (used to mark a keyword argument as
consumed during binding). -/
def alErase {α : Type} : List (String × α) → String → List (String × α)
  | [], _ => []
  | (k2, v2) :: r, k => if k2 = k then r else (k2, v2) :: alErase r k

/-- Python truthiness of the value returned by `SessionConfig.get_node()`:
`None` and the empty string are falsy, everything else is the value itself. -/
def truthyNode : Option String → Option String
  | none => none
  | some s => if s = "" then none else some s

/-- `inspect.signature(func).bind(*pos, **kw)` followed by
`apply_defaults()`, for a signature of plain positional-or-keyword
parameters: produces the full argument list in declaration order, or the
message of the `TypeError` that `bind` raises. -/
def bindArgs : List Param → List Val → KwList → Except String (List Val)
  | [], [], kw =>
      match kw with
      | [] => .ok []
      | (k, _) :: _ => .error ("got an unexpected keyword argument " ++ k)
  | [], _ :: _, _ => .error "too many positional arguments"
  | p :: ps, v :: vs, kw =>
      if (alLookup kw p.name).isSome then
        .error ("multiple values for argument " ++ p.name)
      else
        (bindArgs ps vs kw).map (fun b => v :: b)
  | p :: ps, [], kw =>
      match alLookup kw p.name with
      | some v => (bindArgs ps [] (alErase kw p.name)).map (fun b => v :: b)
      | none =>
          match p.default with
          | some d => (bindArgs ps [] kw).map (fun b => d :: b)
          | none => .error ("missing a required argument: " ++ p.name)

/-- `node_name_in_args = 'node_name' in func_params and 'node_name' in
kwargs` from the wrapper. -/
def nodeNameInArgs (names : List String) (kw : KwList) : Bool :=
  names.contains "node_name" && (alLookup kw "node_name").isSome

/-- The wrapper's node-injection block: starting from
`call_args = [proxmox_api]`, if `node_name` is declared and was not passed by
keyword, append the (truthy) session node, else consume the caller's first
positional argument.  Returns the updated `call_args` and remaining
positional args. -/
def nodePhase (names : List String) (apiV : Val) (sess : Option String)
    (args : List Val) (kw : KwList) : List Val × List Val :=
  if names.contains "node_name" && !(nodeNameInArgs names kw) then
    match truthyNode sess with
    | some h => ([apiV, Val.str h], args)
    | none =>
        match args with
        | a :: r => ([apiV, a], r)
        | [] => ([apiV], [])
  else ([apiV], args)

/-- The wrapper's VM-identifier resolution block: fires only when `vm_id` is
declared and positional args remain; picks the raw value from `args[0]` or
`kwargs` depending on `node_name_in_args`, resolves it against
`call_args[1]` (or `None`), and splices the canonical value back into the
slot it came from.  `.error` is the early-returned resolution-failure string. -/
def vmPhase (names : List String) (nnia : Bool) (resolver : Resolver)
    (ca : List Val) (args : List Val) (kw : KwList) :
    Except String (List Val × KwList) :=
  if names.contains "vm_id" && !args.isEmpty then
    let node := ca[1]?
    let vmid := if nnia then alLookup kw "vm_id" else args.head?
    match vmid with
    | none => .ok (args, kw)
    | some v =>
        match resolver node v with
        | none => .error ("🔴 Could not resolve VM identifier: " ++ v.render)
        | some rv =>
            if nnia then .ok (args, alUpdate kw "vm_id" rv)
            else .ok (rv :: args.tail, kw)
  else .ok (args, kw)

/-- The wrapper-formatted `except TypeError` message. -/
def typeErrStr (fname msg : String) : String :=
  "🔴 TypeError in " ++ fname ++ ": " ++ msg ++ "."

/-- The wrapper-formatted `except Exception` message. -/
def bodyErrStr (fname msg : String) : String :=
  "🔴 Error processing your request in " ++ fname ++ ": " ++ msg

/-- Both injection phases of the wrapper in source order: the assembled
`call_args`, the remaining positional args and the (possibly updated)
keyword args, or the early-returned resolution-failure string. -/
def injectResult (f : Func) (resolver : Resolver) (apiV : Val)
    (sess : Option String) (args : List Val) (kw : KwList) :
    Except String (List Val × List Val × KwList) :=
  let names := f.params.map Param.name
  let nnia := nodeNameInArgs names kw
  let ca1 := nodePhase names apiV sess args kw
  (vmPhase names nnia resolver ca1.1 ca1.2 kw).map (fun x => (ca1.1, x.1, x.2))

/-- Everything the wrapper does before invoking the operation body:
connectivity check, injection, resolution and argument binding.
`.ok bound` means the wrapper goes on to call the body with `bound`;
`.error s` means the wrapper returns `s` without ever invoking the body. -/
def assemble (f : Func) (resolver : Resolver) (api : Option Val)
    (sess : Option String) (args : List Val) (kw : KwList) :
    Except String (List Val) :=
  match api with
  | none => .error "🔴 Failed to connect to Proxmox API."
  | some apiV =>
      match injectResult f resolver apiV sess args kw with
      | .error s => .error s
      | .ok (ca, a2, k2) =>
          match bindArgs f.params (ca ++ a2) k2 with
          | .error m => .error (typeErrStr f.name m)
          | .ok b => .ok b

/-- The full `wrapper(*args, **kwargs)` closure from `command_decorator.py`:
assembles the call, invokes the body, and converts every raised exception
into a returned string. -/
def wrapper (f : Func) (resolver : Resolver) (api : Option Val)
    (sess : Option String) (args : List Val) (kw : KwList) : String :=
  match assemble f resolver api sess args kw with
  | .error s => s
  | .ok b =>
      match f.body b with
      | .ok r => r
      | .exc (.typeError m) => typeErrStr f.name m
      | .exc (.other m) => bodyErrStr f.name m

/-- `CommandHandler.command_functions`: group name → (command name →
registered wrapper), as a Python dict of dicts in insertion order. -/
abbrev Registry := List (String × List (String × Func))

/-- `parts[0] in self.command_functions`. -/
def hasGroup (reg : Registry) (g : String) : Bool :=
  (alLookup reg g).isSome

/-- `command_group in self.command_functions and command in
self.command_functions[command_group]`, returning the registered function. -/
def lookupCmd (reg : Registry) (g c : String) : Option Func :=
  match alLookup reg g with
  | none => none
  | some m => alLookup m c

/-- `CommandHandler.register_command`: normalise a falsy group to
`"default"`, create the group dict if absent, then assign
`command_functions[group][name] = func` (a plain dict assignment). -/
def register_command (reg : Registry) (group cname : String) (f : Func) :
    Registry :=
  let g := if group = "" then "default" else group
  match alLookup reg g with
  | none => alUpdate reg g [(cname, f)]
  | some m => alUpdate reg g (alUpdate m cname f)

/-- An exception escaping the dispatcher uncaught. -/
inductive PyErr where
  | keyError (k : String)
  | indexError
  deriving DecidableEq

/-- `str.lower()` restricted to ASCII case mapping. -/
def lowerStr (s : String) : String :=
  String.mk (s.data.map Char.toLower)

/-- `CommandHandler.parse_command(parts)`.  Mirrors the source exactly: when
the first token is not a known group (or no second token follows), the
`elif` indexes `self.command_functions["default"]`, which raises an uncaught
`KeyError` if no operation was registered in the default group. -/
def parse_command (reg : Registry) (parts : List String) :
    Except PyErr (String × String × List String) :=
  match parts with
  | [] => .error .indexError
  | p0 :: rest =>
      match rest, hasGroup reg p0 with
      | r1 :: rs, true => .ok (lowerStr p0, r1, rs)
      | _, _ =>
          match alLookup reg "default" with
          | none => .error (.keyError "default")
          | some _ => .ok ("default", p0, rest)

/-- `message.strip().split()`: split on whitespace runs, dropping empties. -/
def splitWsAux : List Char → List Char → List (List Char)
  | [], acc => if acc.isEmpty then [] else [acc.reverse]
  | c :: cs, acc =>
      if c.isWhitespace then
        if acc.isEmpty then splitWsAux cs []
        else acc.reverse :: splitWsAux cs []
      else splitWsAux cs (c :: acc)

/-- Tokenisation used by `respond`. -/
def tokenize (s : String) : List String :=
  (splitWsAux s.data []).map String.mk

/-- The effective parameter-name list that `generate_help_message` renders
for one operation: drop `proxmox` and `node_name`, then re-insert
`node_name` at the front iff it is declared and the session node is falsy. -/
def help_param_names (f : Func) (sess : Option String) : List String :=
  let names := f.params.map Param.name
  let base := names.filter (fun n => !(n == "proxmox" || n == "node_name"))
  if names.contains "node_name" && (truthyNode sess).isNone then
    "node_name" :: base
  else base

/-- Modelled from the spec: `commands_to_markdown` lives in the transformers
module, which is not under the provided sources; per the Help Generator
contract it renders each command format paired with its description as a
markdown-like text block. -/
def commands_to_markdown (entries : List (String × String)) : String :=
  String.intercalate "\n" (entries.map (fun e => e.1 ++ " - " ++ e.2))

/-- Python `str.strip()`: drop whitespace from both ends. -/
def strip (s : String) : String :=
  String.mk (((s.data.dropWhile Char.isWhitespace).reverse.dropWhile
    Char.isWhitespace).reverse)

/-- One help entry: `f"{cmd} {params}".strip()`, prefixed with the group
name unless the group is `default`; paired with the description. -/
def renderHelpEntry (g c : String) (f : Func) (sess : Option String) :
    String × String :=
  let ps := help_param_names f sess
  let fmt :=
    strip (c ++ " " ++ String.intercalate " " (ps.map (fun p => "<" ++ p ++ ">")))
  (if g = "default" then fmt else g ++ " " ++ fmt, f.descr)

/-- `CommandHandler.generate_help_message(command_group=None)`.  A falsy
filter (absent or empty string) keeps every group. -/
def generate_help_message (reg : Registry) (sess : Option String)
    (fil : Option String) : String :=
  let blocks := reg.filterMap (fun gc =>
    let keep :=
      match fil with
      | some fg => fg = "" || gc.1 = fg
      | none => true
    if keep then
      match gc.2.map (fun cf => renderHelpEntry gc.1 cf.1 cf.2 sess) with
      | [] => none
      | infos => some (commands_to_markdown infos)
    else none)
  if blocks.isEmpty then "No commands found for this group."
  else String.intercalate "\n" blocks

/-- The body of `CommandHandler.respond` after tokenisation: help short
circuit, parse, lookup, invocation through the wrapper.  `.error` is an
exception escaping `respond` uncaught.  (The wrapper itself never raises, so
the `try/except` around the invocation adds no reachable branch here; all
chat-sourced calls are purely positional.)  The literal source messages
contain quoted `help`; quotes are elided. -/
def dispatch (reg : Registry) (resolver : Resolver) (api : Option Val)
    (sess : Option String) (parts : List String) : Except PyErr String :=
  match parts with
  | [] => .ok "Please provide a command. Type help for a list of commands."
  | p0 :: rest =>
      if lowerStr p0 = "help" then
        match rest with
        | g :: _ => .ok (generate_help_message reg sess (some (lowerStr g)))
        | [] => .ok (generate_help_message reg sess none)
      else
        match parse_command reg (p0 :: rest) with
        | .error e => .error e
        | .ok (g, c, uargs) =>
            match lookupCmd reg g c with
            | some f => .ok (wrapper f resolver api sess (uargs.map Val.str) [])
            | none =>
                .ok "Unknown command or command group. Type help for a list of commands."

/-- `CommandHandler.respond(message)`. -/
def respond (reg : Registry) (resolver : Resolver) (api : Option Val)
    (sess : Option String) (message : String) : Except PyErr String :=
  dispatch reg resolver api sess (tokenize message)

/-! ### Generic lemmas about the embedded operations -/

theorem alLookup_alUpdate {α : Type} (l : List (String × α)) (k : String) (v : α) :
    alLookup (alUpdate l k v) k = some v := by
  induction l with
  | nil => simp [alUpdate, alLookup]
  | cons h t ih =>
      obtain ⟨k2, v2⟩ := h
      by_cases hk : k2 = k
      · simp [alUpdate, hk, alLookup]
      · simp [alUpdate, hk, alLookup, ih]

theorem bindArgs_ok_prefix :
    ∀ (params : List Param) (pos : List Val) (kw : KwList) (bound : List Val),
      bindArgs params pos kw = .ok bound → ∃ tl, bound = pos ++ tl := by
  intro params
  induction params with
  | nil =>
      intro pos kw bound h
      cases pos with
      | nil =>
          cases kw with
          | nil =>
              simp [bindArgs] at h
              exact ⟨[], by simp [← h]⟩
          | cons a t => simp [bindArgs] at h
      | cons a r => simp [bindArgs] at h
  | cons p ps ih =>
      intro pos kw bound h
      cases pos with
      | nil => exact ⟨bound, rfl⟩
      | cons v vs =>
          by_cases hkw : (alLookup kw p.name).isSome
          · simp [bindArgs, hkw] at h
          · simp [bindArgs, hkw] at h
            cases hb : bindArgs ps vs kw with
            | error e => rw [hb] at h; simp [Except.map] at h
            | ok b =>
                rw [hb] at h
                simp [Except.map] at h
                obtain ⟨tl, htl⟩ := ih vs kw b hb
                exact ⟨tl, by simp [← h, htl]⟩

theorem bindArgs_exact :
    ∀ (params : List Param) (pos : List Val), pos.length = params.length →
      bindArgs params pos [] = .ok pos := by
  intro params
  induction params with
  | nil =>
      intro pos h
      cases pos with
      | nil => simp [bindArgs]
      | cons a r => simp at h
  | cons p ps ih =>
      intro pos h
      cases pos with
      | nil => simp at h
      | cons v vs =>
          have hl : vs.length = ps.length := by simpa using h
          simp [bindArgs, alLookup, ih vs hl, Except.map]

theorem bindArgs_missing :
    ∀ (params : List Param) (pos : List Val),
      (∀ p ∈ params, p.default = none) → pos.length < params.length →
      ∃ nm, bindArgs params pos [] =
        .error ("missing a required argument: " ++ nm) := by
  intro params
  induction params with
  | nil => intro pos hd h; simp at h
  | cons p ps ih =>
      intro pos hd h
      cases pos with
      | nil =>
          exact ⟨p.name, by simp [bindArgs, alLookup, hd p (by simp)]⟩
      | cons v vs =>
          have hlt : vs.length < ps.length := by
            simpa [Nat.succ_lt_succ_iff] using h
          obtain ⟨nm, hnm⟩ := ih vs (fun q hq => hd q (by simp [hq])) hlt
          exact ⟨nm, by simp [bindArgs, alLookup, hnm, Except.map]⟩

theorem injectResult_with_session
    (f : Func) (resolver : Resolver) (apiV : Val) (sess : Option String)
    (H : String) (args : List Val) (kw : KwList)
    (hc : (f.params.map Param.name).contains "node_name" = true)
    (hkw : alLookup kw "node_name" = none)
    (hsess : truthyNode sess = some H) :
    injectResult f resolver apiV sess args kw
      = (vmPhase (f.params.map Param.name) false resolver
          [apiV, Val.str H] args kw).map
          (fun x => ([apiV, Val.str H], x.1, x.2)) := by
  have hnnia : nodeNameInArgs (f.params.map Param.name) kw = false := by
    simp [nodeNameInArgs, hkw]
  have hmem : ∃ x ∈ f.params, x.name = "node_name" := by
    simpa using hc
  have hnode : nodePhase (f.params.map Param.name) apiV sess args kw
      = ([apiV, Val.str H], args) := by
    simp [nodePhase, hnnia, hsess, hmem]
  simp only [injectResult]
  rw [hnnia, hnode]

theorem injectResult_consume_first
    (f : Func) (resolver : Resolver) (apiV : Val) (sess : Option String)
    (a : Val) (r : List Val) (kw : KwList)
    (hc : (f.params.map Param.name).contains "node_name" = true)
    (hkw : alLookup kw "node_name" = none)
    (hsess : truthyNode sess = none) :
    injectResult f resolver apiV sess (a :: r) kw
      = (vmPhase (f.params.map Param.name) false resolver [apiV, a] r kw).map
          (fun x => ([apiV, a], x.1, x.2)) := by
  have hnnia : nodeNameInArgs (f.params.map Param.name) kw = false := by
    simp [nodeNameInArgs, hkw]
  have hmem : ∃ x ∈ f.params, x.name = "node_name" := by
    simpa using hc
  have hnode : nodePhase (f.params.map Param.name) apiV sess (a :: r) kw
      = ([apiV, a], r) := by
    simp [nodePhase, hnnia, hsess, hmem]
  simp only [injectResult]
  rw [hnnia, hnode]

theorem vmPhase_false_ok
    (names : List String) (resolver : Resolver) (ca : List Val)
    (args : List Val) (kw : KwList) (a2 : List Val) (k2 : KwList)
    (h : vmPhase names false resolver ca args kw = .ok (a2, k2)) :
    k2 = kw ∧ a2.length = args.length := by
  by_cases hcv : names.contains "vm_id" = true
  · cases args with
    | nil =>
        simp [vmPhase, hcv] at h
        exact ⟨h.2.symm, by rw [h.1]⟩
    | cons b bs =>
        simp only [vmPhase, hcv, List.isEmpty_cons, Bool.not_false,
          Bool.and_true, Bool.and_self, if_true, List.head?,
          Bool.false_eq_true, if_false] at h
        cases hr : resolver ca[1]? b with
        | none => rw [hr] at h; simp at h
        | some rv =>
            rw [hr] at h
            simp at h
            exact ⟨h.2.symm, by rw [← h.1]; simp⟩
  · have hcv2 : "vm_id" ∉ names := by simpa using hcv
    simp [vmPhase, hcv2] at h
    exact ⟨h.2.symm, by rw [h.1]⟩

/-- C1: For every operation that declares the implicit-context parameter
`node_name` (in the conventional slot right after the injected handler
parameter), if Session Context holds a truthy value `H` and the caller did
not pass `node_name` by keyword, then whenever the Injector (`wrapper`, here
its argument-assembly part `assemble`) goes on to invoke the operation body,
the body receives `H` as the value of `node_name` — for every sequence of
remaining raw positional tokens and any keyword arguments. -/
theorem c1_session_context_injected
    (f : Func) (resolver : Resolver) (apiV : Val) (sess : Option String)
    (H : String) (ps : List String) (args : List Val) (kw : KwList)
    (hshape : f.params.map Param.name = "proxmox" :: "node_name" :: ps)
    (hsess : truthyNode sess = some H)
    (hkw : alLookup kw "node_name" = none) :
    ∀ bound, assemble f resolver (some apiV) sess args kw = .ok bound →
      bound[1]? = some (Val.str H) := by
  intro bound h
  have hc : (f.params.map Param.name).contains "node_name" = true := by
    rw [hshape]; simp
  have hasm : assemble f resolver (some apiV) sess args kw
      = (match injectResult f resolver apiV sess args kw with
         | .error s => .error s
         | .ok (ca, a2, k2) =>
             match bindArgs f.params (ca ++ a2) k2 with
             | .error m => .error (typeErrStr f.name m)
             | .ok b => .ok b) := rfl
  rw [hasm,
    injectResult_with_session f resolver apiV sess H args kw hc hkw hsess] at h
  cases hv : vmPhase (f.params.map Param.name) false resolver
      [apiV, Val.str H] args kw with
  | error e => rw [hv] at h; simp [Except.map] at h
  | ok pr =>
      rw [hv] at h
      obtain ⟨a2, k2⟩ := pr
      simp only [Except.map] at h
      cases hb : bindArgs f.params ([apiV, Val.str H] ++ a2) k2 with
      | error m => rw [hb] at h; simp at h
      | ok b =>
          rw [hb] at h
          simp at h
          obtain ⟨tl, htl⟩ := bindArgs_ok_prefix f.params _ k2 b hb
          rw [← h, htl]
          simp

deriving instance DecidableEq for Except

/-- A representative registered operation following the repository's
signature convention `(proxmox, node_name, vm_id)`, used to witness the
general theorems on concrete inputs. -/
def vmStatusFunc : Func :=
  { name := "vm_status"
  , params := [⟨"proxmox", none⟩, ⟨"node_name", none⟩, ⟨"vm_id", none⟩]
  , descr := "Show VM status"
  , body := fun _ => .ok "status-ok" }

/-- A resolver that resolves every identifier to itself. -/
def idResolver : Resolver := fun _ v => some v

theorem c1_session_context_injected_witness :
    assemble vmStatusFunc idResolver (some Val.api) (some "pve1")
      [Val.str "101"] [] = .ok [Val.api, Val.str "pve1", Val.str "101"]
    ∧ [Val.api, Val.str "pve1", Val.str "101"][1]? = some (Val.str "pve1") := by
  refine ⟨by decide, ?_⟩
  exact c1_session_context_injected vmStatusFunc idResolver Val.api
    (some "pve1") "pve1" ["vm_id"] [Val.str "101"] [] rfl (by decide) rfl
    [Val.api, Val.str "pve1", Val.str "101"] (by decide)

theorem vmPhase_total (names : List String) (resolver : Resolver)
    (ca : List Val) (args : List Val) (kw : KwList)
    (hres : ∀ n v, (resolver n v).isSome) :
    ∃ pr, vmPhase names false resolver ca args kw = .ok pr := by
  by_cases hcv : names.contains "vm_id" = true
  · cases args with
    | nil => exact ⟨(([] : List Val), kw), by simp [vmPhase]⟩
    | cons b bs =>
        obtain ⟨rv, hrv⟩ := Option.isSome_iff_exists.mp (hres ca[1]? b)
        have hm : "vm_id" ∈ names := by simpa using hcv
        exact ⟨(rv :: bs, kw), by simp [vmPhase, hm, hrv]⟩
  · have hm : "vm_id" ∉ names := by simpa using hcv
    exact ⟨(args, kw), by simp [vmPhase, hm]⟩

theorem injectResult_no_args
    (f : Func) (resolver : Resolver) (apiV : Val) (sess : Option String)
    (kw : KwList)
    (hc : (f.params.map Param.name).contains "node_name" = true)
    (hkw : alLookup kw "node_name" = none)
    (hsess : truthyNode sess = none) :
    injectResult f resolver apiV sess [] kw = .ok ([apiV], [], kw) := by
  have hnnia : nodeNameInArgs (f.params.map Param.name) kw = false := by
    simp [nodeNameInArgs, hkw]
  have hmem : ∃ x ∈ f.params, x.name = "node_name" := by
    simpa using hc
  have hnode : nodePhase (f.params.map Param.name) apiV sess [] kw
      = ([apiV], []) := by
    simp [nodePhase, hnnia, hsess, hmem]
  simp only [injectResult]
  rw [hnnia, hnode]
  simp [vmPhase, Except.map]

/-- C2: For every operation that declares the implicit-context parameter
(signature `proxmox :: node_name :: ps`, all parameters required), when
Session Context is empty and no keyword arguments are passed: calling with
`N = ps.length + 1` positional user tokens (the number of non-injected
declared parameters) binds the first token to `node_name` and shifts the
remaining tokens left by one (verbatim when no resolvable-identifier
parameter is declared; with the first shifted token replaced by its resolved
form otherwise, resolution assumed successful), while calling with `N - 1`
tokens makes the wrapper return a usage-failure (`TypeError`-formatted)
string instead of invoking the operation body. -/
theorem c2_empty_session_consumes_first_token
    (f : Func) (resolver : Resolver) (apiV : Val) (sess : Option String)
    (ps : List String)
    (hshape : f.params.map Param.name = "proxmox" :: "node_name" :: ps)
    (hdef : ∀ p ∈ f.params, p.default = none)
    (hsess : truthyNode sess = none)
    (hres : ∀ n v, (resolver n v).isSome) :
    (∀ (t : Val) (rest : List Val), rest.length = ps.length →
      ∃ bound, assemble f resolver (some apiV) sess (t :: rest) [] = .ok bound ∧
        bound[1]? = some t ∧
        ("vm_id" ∉ ps → bound = apiV :: t :: rest))
    ∧ (∀ args : List Val, args.length = ps.length →
        ∃ m, assemble f resolver (some apiV) sess args [] =
          .error (typeErrStr f.name ("missing a required argument: " ++ m))) := by
  have hc : (f.params.map Param.name).contains "node_name" = true := by
    rw [hshape]; simp
  have hlen : f.params.length = ps.length + 2 := by
    have h2 := congrArg List.length hshape
    simpa using h2
  constructor
  · intro t rest hrl
    have hinj := injectResult_consume_first f resolver apiV sess t rest []
      hc rfl hsess
    obtain ⟨⟨a2, k2⟩, hv⟩ := vmPhase_total (f.params.map Param.name) resolver
      [apiV, t] rest [] hres
    obtain ⟨hk2, hlen2⟩ := vmPhase_false_ok _ _ _ _ _ _ _ hv
    subst hk2
    have hb : bindArgs f.params (apiV :: t :: a2) [] = .ok (apiV :: t :: a2) := by
      apply bindArgs_exact
      have ha2 : a2.length = ps.length := by rw [hlen2, hrl]
      simp [hlen, ha2]
    have hasm : assemble f resolver (some apiV) sess (t :: rest) []
        = (match injectResult f resolver apiV sess (t :: rest) [] with
           | .error s => .error s
           | .ok (ca, a2, k2) =>
               match bindArgs f.params (ca ++ a2) k2 with
               | .error m => .error (typeErrStr f.name m)
               | .ok b => .ok b) := rfl
    refine ⟨apiV :: t :: a2, ?_, by simp, ?_⟩
    · rw [hasm, hinj, hv]
      simp [Except.map, hb]
    · intro hnotin
      have hm : "vm_id" ∉ (f.params.map Param.name) := by
        rw [hshape]
        simp [hnotin]
      have hskip : vmPhase (f.params.map Param.name) false resolver
          [apiV, t] rest [] = .ok (rest, []) := by
        simp [vmPhase, hm]
      rw [hskip] at hv
      simp at hv
      rw [← hv]
  · intro args hal
    cases args with
    | nil =>
        have hinj := injectResult_no_args f resolver apiV sess [] hc rfl hsess
        obtain ⟨nm, hnm⟩ := bindArgs_missing f.params [apiV] hdef
          (by rw [hlen]; simp)
        refine ⟨nm, ?_⟩
        have hasm : assemble f resolver (some apiV) sess [] []
            = (match injectResult f resolver apiV sess [] [] with
               | .error s => .error s
               | .ok (ca, a2, k2) =>
                   match bindArgs f.params (ca ++ a2) k2 with
                   | .error m => .error (typeErrStr f.name m)
                   | .ok b => .ok b) := rfl
        rw [hasm, hinj]
        simp [hnm]
    | cons a r =>
        have hinj := injectResult_consume_first f resolver apiV sess a r []
          hc rfl hsess
        obtain ⟨⟨a2, k2⟩, hv⟩ := vmPhase_total (f.params.map Param.name)
          resolver [apiV, a] r [] hres
        obtain ⟨hk2, hlen2⟩ := vmPhase_false_ok _ _ _ _ _ _ _ hv
        subst hk2
        obtain ⟨nm, hnm⟩ := bindArgs_missing f.params (apiV :: a :: a2) hdef
          (by
            have hr : r.length + 1 = ps.length := by simpa using hal
            simp [hlen, hlen2]
            omega)
        refine ⟨nm, ?_⟩
        have hasm : assemble f resolver (some apiV) sess (a :: r) []
            = (match injectResult f resolver apiV sess (a :: r) [] with
               | .error s => .error s
               | .ok (ca, a2, k2) =>
                   match bindArgs f.params (ca ++ a2) k2 with
                   | .error m => .error (typeErrStr f.name m)
                   | .ok b => .ok b) := rfl
        rw [hasm, hinj, hv]
        simp [Except.map, hnm]

theorem c2_empty_session_consumes_first_token_witness :
    (∃ bound, assemble vmStatusFunc idResolver (some Val.api) none
        [Val.str "pve1", Val.str "101"] [] = .ok bound ∧
      bound[1]? = some (Val.str "pve1") ∧
      ("vm_id" ∉ ["vm_id"] → bound = Val.api :: Val.str "pve1" :: [Val.str "101"]))
    ∧ (∃ m, assemble vmStatusFunc idResolver (some Val.api) none
        [Val.str "pve1"] [] =
        .error (typeErrStr vmStatusFunc.name ("missing a required argument: " ++ m))) := by
  have h := c2_empty_session_consumes_first_token vmStatusFunc idResolver
    Val.api none ["vm_id"] rfl (by decide) rfl (by intro n v; rfl)
  exact ⟨h.1 (Val.str "pve1") [Val.str "101"] rfl, h.2 [Val.str "pve1"] rfl⟩

/-- A resolver that never resolves (always signals unresolved). -/
def noResolver : Resolver := fun _ _ => none

/-- C3: For every invocation in which the Identifier Resolver is
consulted with raw identifier `X` (the resolution block fires: `vm_id` is
declared, positional tokens remain after node consumption, and the raw value
picked for it is `X`) and signals unresolved, the wrapper returns the
resolution-failure string naming `X` — and the operation body is never
invoked: the assembly stops with `.error`, and the wrapper's result is the
same string for every possible body. -/
theorem c3_unresolved_identifier_never_invokes
    (f : Func) (resolver : Resolver) (apiV : Val) (sess : Option String)
    (args : List Val) (kw : KwList) (ca : List Val) (v1 : Val)
    (a1r : List Val) (X : String)
    (hvm : (f.params.map Param.name).contains "vm_id" = true)
    (hnode : nodePhase (f.params.map Param.name) apiV sess args kw
      = (ca, v1 :: a1r))
    (hraw : (if nodeNameInArgs (f.params.map Param.name) kw then
        alLookup kw "vm_id" else some v1) = some (Val.str X))
    (hres : resolver ca[1]? (Val.str X) = none) :
    assemble f resolver (some apiV) sess args kw
      = .error ("🔴 Could not resolve VM identifier: " ++ X)
    ∧ ∀ bfn : List Val → BodyOut,
        wrapper { f with body := bfn } resolver (some apiV) sess args kw
          = "🔴 Could not resolve VM identifier: " ++ X := by
  have hm : "vm_id" ∈ (f.params.map Param.name) := by simpa using hvm
  have hvmres : vmPhase (f.params.map Param.name)
      (nodeNameInArgs (f.params.map Param.name) kw) resolver ca (v1 :: a1r) kw
      = .error ("🔴 Could not resolve VM identifier: " ++ X) := by
    unfold vmPhase
    rw [if_pos (by simp [hm])]
    simp only [List.head?_cons]
    rw [hraw]
    simp [hres, Val.render]
  have key : ∀ bfn : List Val → BodyOut,
      assemble { f with body := bfn } resolver (some apiV) sess args kw
        = .error ("🔴 Could not resolve VM identifier: " ++ X) := by
    intro bfn
    have hasm : assemble { f with body := bfn } resolver (some apiV) sess args kw
        = (match injectResult { f with body := bfn } resolver apiV sess args kw with
           | .error s => .error s
           | .ok (ca2, a2, k2) =>
               match bindArgs f.params (ca2 ++ a2) k2 with
               | .error m => .error (typeErrStr f.name m)
               | .ok b => .ok b) := rfl
    have hinj : injectResult { f with body := bfn } resolver apiV sess args kw
        = .error ("🔴 Could not resolve VM identifier: " ++ X) := by
      simp only [injectResult]
      rw [hnode]
      simp [hvmres, Except.map]
    rw [hasm, hinj]
  refine ⟨key f.body, ?_⟩
  intro bfn
  have hw : wrapper { f with body := bfn } resolver (some apiV) sess args kw
      = (match assemble { f with body := bfn } resolver (some apiV) sess args kw with
         | .error s => s
         | .ok b =>
             match bfn b with
             | .ok r => r
             | .exc (.typeError m) => typeErrStr f.name m
             | .exc (.other m) => bodyErrStr f.name m) := rfl
  rw [hw, key bfn]

theorem c3_unresolved_identifier_never_invokes_witness :
    assemble vmStatusFunc noResolver (some Val.api) (some "pve1")
      [Val.str "101"] [] = .error ("🔴 Could not resolve VM identifier: " ++ "101")
    ∧ ∀ bfn : List Val → BodyOut,
        wrapper { vmStatusFunc with body := bfn } noResolver (some Val.api)
          (some "pve1") [Val.str "101"] []
          = "🔴 Could not resolve VM identifier: " ++ "101" :=
  c3_unresolved_identifier_never_invokes vmStatusFunc noResolver Val.api
    (some "pve1") [Val.str "101"] [] [Val.api, Val.str "pve1"]
    (Val.str "101") [] "101" (by decide) (by decide) (by decide) rfl

/-- C7: For every operation body that raises an arbitrary (non-TypeError)
runtime fault, the wrapper returns the formatted failure string, which
contains the operation's qualified name and the fault's message by
construction.  The wrapper returns a string instead of propagating the
exception, and the dispatcher's state (Registry, Session Context) is not
touched, so the process can serve the next command. -/
theorem c7_body_fault_reported
    (f : Func) (resolver : Resolver) (api : Option Val) (sess : Option String)
    (args : List Val) (kw : KwList) (bound : List Val) (m : String)
    (hok : assemble f resolver api sess args kw = .ok bound)
    (hbody : f.body bound = .exc (.other m)) :
    wrapper f resolver api sess args kw
      = "🔴 Error processing your request in " ++ f.name ++ ": " ++ m := by
  unfold wrapper
  rw [hok]
  simp [hbody, bodyErrStr]

/-- An operation whose body raises a runtime fault. -/
def boomFunc : Func :=
  { name := "node_reboot"
  , params := [⟨"proxmox", none⟩]
  , descr := "Reboot the node"
  , body := fun _ => .exc (.other "boom") }

theorem c7_body_fault_reported_witness :
    wrapper boomFunc idResolver (some Val.api) none [] []
      = "🔴 Error processing your request in " ++ "node_reboot" ++ ": " ++ "boom" :=
  c7_body_fault_reported boomFunc idResolver (some Val.api) none [] []
    [Val.api] "boom" (by decide) rfl

/-- C6 amended: A binding failure (wrong arity or unknown keyword) in
the final assembly is caught inside the wrapper, which returns its own
`TypeError`-formatted string naming the operation and including the binding
error message — not the dispatcher's generic check-command-format message
(that branch of `respond` is unreachable for wrapper-level binding
failures, because the wrapper returns the string rather than raising).  The
failure is still non-fatal: a string is returned, no exception propagates. -/
theorem c6_binding_failure_detailed_string
    (f : Func) (resolver : Resolver) (apiV : Val) (sess : Option String)
    (args : List Val) (kw : KwList) (ca a2 : List Val) (k2 : KwList)
    (m : String)
    (hinj : injectResult f resolver apiV sess args kw = .ok (ca, a2, k2))
    (hbind : bindArgs f.params (ca ++ a2) k2 = .error m) :
    wrapper f resolver (some apiV) sess args kw = typeErrStr f.name m := by
  have hass : assemble f resolver (some apiV) sess args kw
      = .error (typeErrStr f.name m) := by
    have hasm : assemble f resolver (some apiV) sess args kw
        = (match injectResult f resolver apiV sess args kw with
           | .error s => .error s
           | .ok (ca2, b2, kk2) =>
               match bindArgs f.params (ca2 ++ b2) kk2 with
               | .error mm => .error (typeErrStr f.name mm)
               | .ok b => .ok b) := rfl
    rw [hasm, hinj]
    simp [hbind]
  unfold wrapper
  rw [hass]

theorem c6_binding_failure_detailed_string_witness :
    wrapper vmStatusFunc idResolver (some Val.api) none [] []
      = typeErrStr vmStatusFunc.name "missing a required argument: node_name" :=
  c6_binding_failure_detailed_string vmStatusFunc idResolver Val.api none [] []
    [Val.api] [] [] "missing a required argument: node_name"
    (by decide) (by decide)

/-- A registry with a single default-group operation (used to exercise the
dispatcher on a binding failure). -/
def regDefaultOnly : Registry := [("default", [("stat", vmStatusFunc)])]

/-- C6 counterexample: At a concrete dispatch with a wrong argument
count, `respond` returns the wrapper's detailed TypeError string — which
differs from the generic check-command-format usage message and leaks the
internal argument-binding error details. -/
theorem c6_counterexample_detailed_not_generic :
    respond regDefaultOnly idResolver (some Val.api) none "stat"
      = .ok ("🔴 TypeError in vm_status: missing a required argument: node_name.")
    ∧ ("🔴 TypeError in vm_status: missing a required argument: node_name." : String)
      ≠ "Incorrect command usage. Please check the command format and try again." :=
  ⟨by decide, by decide⟩

/-- C4 amended: `register_command` never fails: registering an
operation under an already-present `(group, name)` silently overwrites it,
and after any registration `lookup(group, name)` (with a falsy group
normalised to `default`) returns exactly the most recently registered
descriptor. -/
theorem c4_registration_overwrites_and_lookup
    (reg : Registry) (g n : String) (f : Func) :
    lookupCmd (register_command reg g n f) (if g = "" then "default" else g) n
      = some f := by
  simp only [register_command, lookupCmd]
  cases halg : alLookup reg (if g = "" then "default" else g) with
  | none =>
      simp only [halg]
      rw [alLookup_alUpdate]
      simp [alLookup]
  | some m =>
      simp only [halg]
      rw [alLookup_alUpdate]
      simp [alLookup_alUpdate]

/-- Two distinct operations competing for the same `(group, name)` pair. -/
def rebootA : Func :=
  { name := "vm_reboot"
  , params := [⟨"proxmox", none⟩]
  , descr := "first registration"
  , body := fun _ => .ok "A" }

def rebootB : Func :=
  { name := "vm_reboot_override"
  , params := [⟨"proxmox", none⟩]
  , descr := "second registration"
  , body := fun _ => .ok "B" }

/-- C4 counterexample: Registering the same `(group, name)` twice does
not fail: `register_command` is total, the second registration silently
replaces the first in place, and lookup afterwards returns the second
descriptor, which differs from the first. -/
theorem c4_counterexample_silent_overwrite :
    register_command (register_command [] "vm" "reboot" rebootA) "vm" "reboot"
        rebootB = [("vm", [("reboot", rebootB)])]
    ∧ lookupCmd (register_command (register_command [] "vm" "reboot" rebootA)
        "vm" "reboot" rebootB) "vm" "reboot" = some rebootB
    ∧ rebootB ≠ rebootA := by
  refine ⟨rfl, rfl, ?_⟩
  intro h
  have hn := congrArg Func.name h
  simp [rebootA, rebootB] at hn

/-- C5: Evaluation of the dispatcher at the failing input: with a
Registry that has no operation in the `default` group, a message whose first
token is not a registered group makes `parse_command` index
`command_functions["default"]`, and the resulting `KeyError` escapes
`respond` instead of being recovered into a returned string. -/
theorem c5_keyerror_escapes_dispatcher :
    respond [("vm", [("status", vmStatusFunc)])] idResolver (some Val.api)
      none "status 101" = .error (.keyError "default") := by
  decide

/-- C8: For an operation declared `(proxmox, node_name, vm_id)`, the
help output's effective parameter list never shows the handler parameter
`proxmox`; it shows the implicit-context parameter `node_name` first exactly
when Session Context is empty (falsy), and shows no extra context parameter
when it is set — and this visibility agrees with the Injector's runtime
node-consumption behaviour as a function of the same session state: when the
context is set, `nodePhase` injects it and leaves the user tokens untouched;
when empty, it consumes the first user token as `node_name`. -/
theorem c8_help_visibility_matches_injection
    (f : Func) (sess : Option String)
    (hshape : f.params.map Param.name = ["proxmox", "node_name", "vm_id"]) :
    "proxmox" ∉ help_param_names f sess
    ∧ ((truthyNode sess).isSome → help_param_names f sess = ["vm_id"])
    ∧ (truthyNode sess = none →
        help_param_names f sess = ["node_name", "vm_id"])
    ∧ (∀ (apiV a : Val) (r : List Val),
        nodePhase (f.params.map Param.name) apiV sess (a :: r) []
          = match truthyNode sess with
            | some h => ([apiV, Val.str h], a :: r)
            | none => ([apiV, a], r)) := by
  have hnnia : nodeNameInArgs (f.params.map Param.name) [] = false := by
    simp [nodeNameInArgs, alLookup]
  have hmem : ∃ x ∈ f.params, x.name = "node_name" := by
    have hx : "node_name" ∈ f.params.map Param.name := by rw [hshape]; simp
    simpa using hx
  cases hts : truthyNode sess with
  | some H =>
      have hh : help_param_names f sess = ["vm_id"] := by
        simp [help_param_names, hshape, hts]
      refine ⟨by simp [hh], fun _ => hh, ?_, fun apiV a r => ?_⟩
      · intro hcontra
        simp at hcontra
      · simp [nodePhase, hnnia, hts, hmem]
  | none =>
      have hh : help_param_names f sess = ["node_name", "vm_id"] := by
        simp [help_param_names, hshape, hts]
      refine ⟨by simp [hh], ?_, fun _ => hh, fun apiV a r => ?_⟩
      · intro hcontra
        simp at hcontra
      · simp [nodePhase, hnnia, hts, hmem]

theorem c8_help_visibility_matches_injection_witness :
    "proxmox" ∉ help_param_names vmStatusFunc (some "pve1")
    ∧ help_param_names vmStatusFunc (some "pve1") = ["vm_id"]
    ∧ help_param_names vmStatusFunc none = ["node_name", "vm_id"]
    ∧ nodePhase (vmStatusFunc.params.map Param.name) Val.api (some "pve1")
        [Val.str "101"] [] = ([Val.api, Val.str "pve1"], [Val.str "101"])
    ∧ nodePhase (vmStatusFunc.params.map Param.name) Val.api none
        [Val.str "n1"] [] = ([Val.api, Val.str "n1"], []) := by
  have hset := c8_help_visibility_matches_injection vmStatusFunc
    (some "pve1") rfl
  have hempty := c8_help_visibility_matches_injection vmStatusFunc none rfl
  exact ⟨hset.1, hset.2.1 (by decide), hempty.2.2.1 rfl,
    hset.2.2.2 Val.api (Val.str "101") [], hempty.2.2.2 Val.api (Val.str "n1") []⟩

/-- A resolver that canonicalises every identifier to `999`. -/
def to999Resolver : Resolver := fun _ _ => some (Val.str "999")

/-- C9 amended: A keyword-supplied `vm_id` is resolved only when
`node_name` was also supplied by keyword AND at least one positional token
remains; in that case the Resolver is consulted with scope `None` (because
`call_args` holds only the API handle, not the context value), and on
success the canonical value replaces `kwargs["vm_id"]` — the same keyword
slot it came from. -/
theorem c9_keyword_vmid_resolution_conditions
    (f : Func) (resolver : Resolver) (apiV : Val) (sess : Option String)
    (a : Val) (as2 : List Val) (kw : KwList) (X C : Val)
    (hc : (f.params.map Param.name).contains "node_name" = true)
    (hnn : (alLookup kw "node_name").isSome = true)
    (hvm : (f.params.map Param.name).contains "vm_id" = true)
    (hkwv : alLookup kw "vm_id" = some X)
    (hres : resolver none X = some C) :
    injectResult f resolver apiV sess (a :: as2) kw
      = .ok ([apiV], a :: as2, alUpdate kw "vm_id" C) := by
  have hmemn : ∃ x ∈ f.params, x.name = "node_name" := by simpa using hc
  have hnnia : nodeNameInArgs (f.params.map Param.name) kw = true := by
    simp [nodeNameInArgs, hnn, hmemn]
  have hnode : nodePhase (f.params.map Param.name) apiV sess (a :: as2) kw
      = ([apiV], a :: as2) := by
    simp [nodePhase, hnnia]
  have hm : "vm_id" ∈ (f.params.map Param.name) := by simpa using hvm
  have hvmp : vmPhase (f.params.map Param.name) true resolver [apiV]
      (a :: as2) kw = .ok (a :: as2, alUpdate kw "vm_id" C) := by
    unfold vmPhase
    rw [if_pos (by simp [hm])]
    simp [hkwv, hres]
  simp only [injectResult]
  rw [hnnia, hnode]
  simp [hvmp, Except.map]

theorem c9_keyword_vmid_resolution_conditions_witness :
    injectResult vmStatusFunc to999Resolver Val.api (some "pve1")
      [Val.str "extra"]
      [("node_name", Val.str "pveX"), ("vm_id", Val.str "101")]
      = .ok ([Val.api], [Val.str "extra"],
          alUpdate [("node_name", Val.str "pveX"), ("vm_id", Val.str "101")]
            "vm_id" (Val.str "999")) :=
  c9_keyword_vmid_resolution_conditions vmStatusFunc to999Resolver Val.api
    (some "pve1") (Val.str "extra") []
    [("node_name", Val.str "pveX"), ("vm_id", Val.str "101")]
    (Val.str "101") (Val.str "999") (by decide) (by decide) (by decide)
    (by decide) rfl

/-- C9 counterexample: With `vm_id` supplied by keyword and no
positional tokens remaining, the resolution block is skipped entirely (its
guard requires a non-empty positional argument list): even though the
resolver canonicalises `101` to `999` and Session Context is set, the
operation body is invoked with the raw keyword value `101`. -/
theorem c9_counterexample_keyword_without_positionals :
    assemble vmStatusFunc to999Resolver (some Val.api) (some "pve1") []
      [("vm_id", Val.str "101")]
      = .ok [Val.api, Val.str "pve1", Val.str "101"]
    ∧ (Val.str "101") ≠ (Val.str "999") :=
  ⟨by decide, by decide⟩

/-- An operation registered under an uppercase group name. -/
def rebootUpper : Func :=
  { name := "VM_reboot"
  , params := [⟨"proxmox", none⟩, ⟨"node_name", none⟩, ⟨"vm_id", none⟩]
  , descr := "reboot via uppercase group"
  , body := fun _ => .ok "upper-group-ran" }

/-- An operation registered under the lowercase twin group. -/
def rebootLower : Func :=
  { name := "vm_reboot"
  , params := [⟨"proxmox", none⟩, ⟨"node_name", none⟩, ⟨"vm_id", none⟩]
  , descr := "reboot via lowercase group"
  , body := fun _ => .ok "lower-group-ran" }

/-- A default-group operation keeping `parse_command` total. -/
def pingFunc : Func :=
  { name := "ping"
  , params := [⟨"proxmox", none⟩]
  , descr := "Ping"
  , body := fun _ => .ok "pong" }

/-- C10 amended: Group-token matching in `parse_command` is
case-sensitive but the matched group is lowercased before the Registry
lookup.  Hence (i) for a registered group containing an uppercase letter,
an input `<group> <name> ...` returns the unknown-command message without
invoking any operation — provided the lowercased form is neither the help
keyword nor itself a registered group key; and (ii) a token that is not a
registered group key (for example one differing from a registered
all-lowercase group only in letter case) falls through to the default-group
parse rule — provided a default group exists (otherwise `parse_command`
raises `KeyError`). -/
theorem c10_case_sensitive_match_lowercased_lookup
    (reg : Registry) (resolver : Resolver) (api : Option Val)
    (sess : Option String) :
    (∀ (G nm : String) (rest : List String),
      hasGroup reg G = true →
      (∃ c ∈ G.data, c.isUpper) →
      lowerStr G ≠ "help" →
      hasGroup reg (lowerStr G) = false →
      dispatch reg resolver api sess (G :: nm :: rest)
        = .ok "Unknown command or command group. Type help for a list of commands.")
    ∧ (∀ (t g : String) (rest : List String) (dm : List (String × Func)),
      hasGroup reg g = true →
      lowerStr t = g →
      t ≠ g →
      hasGroup reg t = false →
      alLookup reg "default" = some dm →
      parse_command reg (t :: rest) = .ok ("default", t, rest)) := by
  constructor
  · intro G nm rest hG hup hhelp hlower
    have hlow2 : alLookup reg (lowerStr G) = none := by
      cases h : alLookup reg (lowerStr G) with
      | none => rfl
      | some m =>
          rw [hasGroup, h] at hlower
          simp at hlower
    have hd : dispatch reg resolver api sess (G :: nm :: rest)
        = (if lowerStr G = "help" then
             Except.ok (generate_help_message reg sess (some (lowerStr nm)))
           else
             match parse_command reg (G :: nm :: rest) with
             | .error e => .error e
             | .ok (g2, c2, uargs) =>
                 match lookupCmd reg g2 c2 with
                 | some f =>
                     .ok (wrapper f resolver api sess (uargs.map Val.str) [])
                 | none =>
                     .ok "Unknown command or command group. Type help for a list of commands.") := rfl
    have hparse : parse_command reg (G :: nm :: rest)
        = .ok (lowerStr G, nm, rest) := by
      simp [parse_command, hG]
    rw [hd, if_neg hhelp, hparse]
    simp [lookupCmd, hlow2]
  · intro t g rest dm hg hlowt hne htg hdef
    cases rest with
    | nil => simp [parse_command, htg, hdef]
    | cons r1 rs => simp [parse_command, htg, hdef]

/-- Registry with only an uppercase group (plus a default group). -/
def regUpperOnly : Registry :=
  [("VM", [("reboot", rebootUpper)]), ("default", [("ping", pingFunc)])]

/-- Registry with only a lowercase group (plus a default group). -/
def regLowerOnly : Registry :=
  [("vm", [("reboot", rebootLower)]), ("default", [("ping", pingFunc)])]

theorem c10_case_sensitive_match_lowercased_lookup_witness :
    dispatch regUpperOnly idResolver (some Val.api) none
      ["VM", "reboot", "101"]
      = .ok "Unknown command or command group. Type help for a list of commands."
    ∧ parse_command regLowerOnly ["VM", "reboot"]
      = .ok ("default", "VM", ["reboot"]) := by
  constructor
  · exact (c10_case_sensitive_match_lowercased_lookup regUpperOnly idResolver
      (some Val.api) none).1 "VM" "reboot" ["101"] (by decide)
      ⟨'V', by decide, by decide⟩ (by decide) (by decide)
  · exact (c10_case_sensitive_match_lowercased_lookup regLowerOnly idResolver
      (some Val.api) none).2 "VM" "vm" ["reboot"] [("ping", pingFunc)]
      (by decide) (by decide) (by decide) (by decide) rfl

/-- Registry containing both an uppercase group and its lowercase twin with
the same command name. -/
def regTwin : Registry :=
  [("VM", [("reboot", rebootUpper)]), ("vm", [("reboot", rebootLower)])]

/-- C10 counterexample: With both `VM` and `vm` registered, the input
`VM reboot 101` — whose group token contains an uppercase letter — does not
return the unknown-command message: the case-sensitive match on `VM`
succeeds, the group is lowercased to `vm`, and the lowercase twin's
operation body runs. -/
theorem c10_counterexample_lowercase_twin :
    respond regTwin idResolver (some Val.api) (some "pve1") "VM reboot 101"
      = .ok "lower-group-ran"
    ∧ (Except.ok "lower-group-ran" : Except PyErr String)
      ≠ .ok "Unknown command or command group. Type help for a list of commands." :=
  ⟨by decide, by decide⟩
